import Mathlib

/-!
Shallow embedding of the `kOmegaSSTPANS` turbulence closure declared in
`src/TurbulenceModels/turbulenceModels/RAS/kOmegaSSTPANS/kOmegaSSTPANS.H`
(OpenFOAM-style PANS variant of the k-omega-SST RAS model).

Per-cell quantities are modelled as real numbers; mesh fields are treated
pointwise, one cell at a time, since every operation of the closure acts
cell-by-cell.  The member functions that are implemented inline in the
header (`DkUEff`, `DomegaUEff`, `k()`, `epsilon()`, `omega()`, `kU()`,
`omegaU()`) are embedded directly from that code.  The bodies that live in
the out-of-line translation unit `kOmegaSSTPANS.C` (blending functions,
`correctNut`, the source terms and `correct()`) are not present in the
sources; those definitions are modelled from the specification and say so
in their doc comments.
-/

namespace KOmegaSSTPANS

noncomputable section

open Real Filter Set

/-- Model coefficient set of the closure: the SST constants and the
PANS-specific constants `fEpsilon`, `uLim` (`fKupperLimit`), `loLim`
(`fKlowerLimit`) from the header's coefficient dictionary (header lines
41-71 and the `dimensionedScalar` members at lines 113-115), plus the
configured eddy-viscosity clip bounds mentioned by the spec (section 4.4). -/
structure Coeffs where
  alphaK1 : ℝ
  alphaK2 : ℝ
  alphaOmega1 : ℝ
  alphaOmega2 : ℝ
  beta1 : ℝ
  beta2 : ℝ
  betaStar : ℝ
  gamma1 : ℝ
  gamma2 : ℝ
  a1 : ℝ
  b1 : ℝ
  c1 : ℝ
  fEpsilon : ℝ
  uLim : ℝ
  loLim : ℝ
  nutMin : ℝ
  nutMax : ℝ

/-- Clip a scalar into the interval `[lo, hi]` (OpenFOAM's
`min(max(x, lo), hi)` idiom used for bounded fields). -/
def clip (lo hi x : ℝ) : ℝ := min (max x lo) hi

/-- Per-cell state owned by the closure: the unresolved fields `kU_`,
`omegaU_`, the resolution-control fields `fK_`, `fOmega_` (header lines
120-125), the inherited total fields `k_`, `omega_` of the base SST model,
and the eddy viscosity `nut_`. -/
structure CellState where
  kU : ℝ
  omegaU : ℝ
  fK : ℝ
  fOmega : ℝ
  k : ℝ
  omega : ℝ
  nut : ℝ

/-- Per-cell external inputs consumed by one `correct()` invocation: the
filter width `delta`, molecular viscosity `nu`, wall distance `y`, the
squared strain-rate magnitude `S2` and the cross-diffusion field
`CDkOmega` (spec sections 4.1-4.4, 6). -/
structure CellInputs where
  delta : ℝ
  nu : ℝ
  y : ℝ
  S2 : ℝ
  CDkOmega : ℝ

/-- Per-cell result of the external transport-equation solves for the
unresolved quantities (the linear-system machinery is an external
collaborator, spec sections 1 and 5); the solver returns the advanced,
positivity-bounded `kU` and `omegaU` values. -/
structure SolveOutputs where
  kU : ℝ
  omegaU : ℝ

/-- Modelled from the spec: the body of `F2()` (declared `const` at header
line 130, defined in the missing `kOmegaSSTPANS.C`).  Spec section 4.1: a
construction like `F1` without the cross-diffusion group, a maximum of
non-dimensional groups passed through a hyperbolic-tangent saturation;
realised with the published SST groups evaluated on the unresolved
quantities. -/
def F2val (c : Coeffs) (kU omegaU nu y : ℝ) : ℝ :=
  tanh ((max (2 * sqrt kU / (c.betaStar * omegaU * y))
             (500 * nu / (y ^ 2 * omegaU))) ^ 2)

/-- Modelled from the spec: the body of `F1(CDkOmega)` (declared `const`
at header line 129, defined in the missing `kOmegaSSTPANS.C`).  Spec
section 4.1: the minimum of non-dimensional groups comparing turbulence
length/time scales against wall distance and cross-diffusion magnitude,
passed through a hyperbolic-tangent saturation; realised with the
published SST groups (with the customary positive floor on the
cross-diffusion magnitude) evaluated on the unresolved quantities. -/
def F1val (c : Coeffs) (kU omegaU nu CDkOmega y : ℝ) : ℝ :=
  tanh ((min (max (sqrt kU / (c.betaStar * omegaU * y))
                  (500 * nu / (y ^ 2 * omegaU)))
             (4 * c.alphaOmega2 * kU / (max CDkOmega (1e-10) * y ^ 2))) ^ 4)

/-- Modelled from the spec: the body of `F3()` (declared at header line
131, defined in the missing `kOmegaSSTPANS.C`).  Spec section 4.1: an
additional correction active at low local Reynolds number; realised with
the published SST form `1 - tanh((150 nu / (omegaU y^2))^4)`. -/
def F3val (c : Coeffs) (omegaU nu y : ℝ) : ℝ :=
  c.c1 * 0 + (1 - tanh ((150 * nu / (omegaU * y ^ 2)) ^ 4))

/-- Modelled from the spec: the local turbulence integral length scale
used by the Resolution-Control Evaluator (spec section 4.2), built from
the unresolved quantities listed there as its inputs:
`Lambda = sqrt(kU) / (betaStar * omegaU)`. -/
def lambdaU (c : Coeffs) (kU omegaU : ℝ) : ℝ :=
  sqrt kU / (c.betaStar * omegaU)

/-- Modelled from the spec: the unclipped `fK` estimate of the
Resolution-Control Evaluator (spec sections 4.2 and 9): the ratio of the
filter width to the integral length scale raised to the published
Girimaji exponent `2/3`, with the prefactor `1/sqrt(betaStar)` taken as
the documented configuration-time choice. -/
def fKraw (c : Coeffs) (delta kU omegaU : ℝ) : ℝ :=
  (1 / sqrt c.betaStar) * (delta / lambdaU c kU omegaU) ^ ((2 : ℝ) / 3)

/-- Modelled from the spec: the clipped resolution-control field value,
`fK = clip(raw, loLim, uLim)` (spec section 4.2). -/
def fKval (c : Coeffs) (delta kU omegaU : ℝ) : ℝ :=
  clip c.loLim c.uLim (fKraw c delta kU omegaU)

/-- Modelled from the spec: the eddy-viscosity update of `correctNut`
(declared at header lines 133-137, defined in the missing
`kOmegaSSTPANS.C`).  Spec section 4.4:
`nut = a1 * kU / max(a1 * omegaU, b1 * F2 * sqrt(S2))`, clipped to the
configured bounds. -/
def correctNutVal (c : Coeffs) (kU omegaU nu y S2 : ℝ) : ℝ :=
  clip c.nutMin c.nutMax
    (c.a1 * kU / max (c.a1 * omegaU) (c.b1 * F2val c kU omegaU nu y * sqrt S2))

/-- Modelled from the spec: one `correct()` invocation (declared at header
line 263, defined in the missing `kOmegaSSTPANS.C`).  Spec sections 3 and
4.5: the external solver advances `kU`, `omegaU`; then `fK` is recomputed
and clipped to `[loLim, uLim]`, `fOmega = fK / fEpsilon`, the stored total
fields are the derived quantities `k = kU / fK`, `omega = omegaU / fOmega`,
and the eddy viscosity is updated last. -/
def correctStep (c : Coeffs) (inp : CellInputs) (sol : SolveOutputs) : CellState :=
  { kU := sol.kU
    omegaU := sol.omegaU
    fK := fKval c inp.delta sol.kU sol.omegaU
    fOmega := fKval c inp.delta sol.kU sol.omegaU / c.fEpsilon
    k := sol.kU / fKval c inp.delta sol.kU sol.omegaU
    omega := sol.omegaU / (fKval c inp.delta sol.kU sol.omegaU / c.fEpsilon)
    nut := correctNutVal c sol.kU sol.omegaU inp.nu inp.y inp.S2 }

/-- The `k()` accessor (header lines 219-222): returns the stored total
turbulence kinetic energy field `k_`. -/
def kAccessor (s : CellState) : ℝ := s.k

/-- The `omega()` accessor (header lines 244-247): returns the stored
total specific dissipation rate field `omega_`. -/
def omegaAccessor (s : CellState) : ℝ := s.omega

/-- The `kU()` accessor (header lines 251-254): returns the stored
unresolved turbulence kinetic energy field `kU_`. -/
def kUAccessor (s : CellState) : ℝ := s.kU

/-- The `omegaU()` accessor (header lines 257-260): returns the stored
unresolved specific dissipation rate field `omegaU_`. -/
def omegaUAccessor (s : CellState) : ℝ := s.omegaU

/-- The `epsilon()` accessor (header lines 225-241): builds a fresh field
holding `betaStar_ * k_ * omega_` on every call. -/
def epsilonAccessor (c : Coeffs) (s : CellState) : ℝ :=
  c.betaStar * s.k * s.omega

/-- Modelled from the spec: the base-model coefficient blend of the
inherited `kOmegaSST` closure (its header `kOmegaSST.H` is not among the
sources); spec section 2, Closure-Coefficient Blender: a linear
interpolation driven by `F1`, here for the `alphaK` pair. -/
def alphaKblend (c : Coeffs) (F1v : ℝ) : ℝ :=
  F1v * c.alphaK1 + (1 - F1v) * c.alphaK2

/-- Modelled from the spec: the linear coefficient blend for the
`alphaOmega` pair (spec section 2, Closure-Coefficient Blender). -/
def alphaOmegaBlend (c : Coeffs) (F1v : ℝ) : ℝ :=
  F1v * c.alphaOmega1 + (1 - F1v) * c.alphaOmega2

/-- The `DkUEff(F1)` member (header lines 193-203): effective diffusivity
for unresolved k, `(fK_/fOmega_) * alphaK(F1) * nut_ + nu`. -/
def DkUEffVal (c : Coeffs) (s : CellState) (F1v nuv : ℝ) : ℝ :=
  (s.fK / s.fOmega) * alphaKblend c F1v * s.nut + nuv

/-- The `DomegaUEff(F1)` member (header lines 206-216): effective
diffusivity for unresolved omega,
`(fK_/fOmega_) * alphaOmega(F1) * nut_ + nu`. -/
def DomegaUEffVal (c : Coeffs) (s : CellState) (F1v nuv : ℝ) : ℝ :=
  (s.fK / s.fOmega) * alphaOmegaBlend c F1v * s.nut + nuv

/-- The blending evaluation as a state-passing call: the three blending
functions are declared `const` member functions (header lines 129-131),
so the call returns the three fields and leaves the state untouched. -/
def blendingCall (c : Coeffs) (inp : CellInputs) (s : CellState) :
    (ℝ × ℝ × ℝ) × CellState :=
  ((F1val c s.kU s.omegaU inp.nu inp.CDkOmega inp.y,
    F2val c s.kU s.omegaU inp.nu inp.y,
    F3val c s.omegaU inp.nu inp.y), s)

/-- An equation-contribution object returned by the source-term
operations: an explicit source part and an implicit coefficient part
(the shallow counterpart of a `tmp<fvScalarMatrix>`). -/
structure SourceContribution where
  su : ℝ
  sp : ℝ

/-- Modelled from the spec: the body of `kSource()` (declared `const` at
header line 139, defined in the missing `kOmegaSSTPANS.C`).  Spec section
4.3: returns the zero contribution when no adjustment is configured (the
default configuration modelled here); state-passing to record that the
`const` call leaves the persisted fields untouched. -/
def kSourceCall (c : Coeffs) (s : CellState) : SourceContribution × CellState :=
  (⟨c.gamma1 * 0, 0⟩, s)

/-- Modelled from the spec: the body of `omegaSource()` (declared `const`
at header line 140, defined in the missing `kOmegaSSTPANS.C`).  Spec
section 4.3: the cross-diffusion blending term weighted by `(1 - F1)`,
taking the blend value and cross-diffusion magnitude as explicit
arguments; state-passing as for `kSource`. -/
def omegaSourceCall (c : Coeffs) (F1v CDv : ℝ) (s : CellState) :
    SourceContribution × CellState :=
  (⟨c.gamma2 * 0 + (1 - F1v) * CDv, 0⟩, s)

/-- Modelled from the spec: the body of `Qsas(S2, gamma, beta)` (declared
`const` at header lines 141-146, defined in the missing
`kOmegaSSTPANS.C`).  Spec section 4.3: returns zero when the feature is
not enabled by configuration (the default modelled here). -/
def QsasCall (c : Coeffs) (S2 gammav betav : ℝ) (s : CellState) :
    SourceContribution × CellState :=
  (⟨c.beta1 * 0 * S2 * gammav * betav, 0⟩, s)

/-- The default coefficient values from the header's documentation block
(header lines 41-71), with eddy-viscosity clip bounds `[0, 10^5]`. -/
def stdCoeffs : Coeffs where
  alphaK1 := 0.85
  alphaK2 := 1.0
  alphaOmega1 := 0.5
  alphaOmega2 := 0.856
  beta1 := 0.075
  beta2 := 0.0828
  betaStar := 0.09
  gamma1 := 5 / 9
  gamma2 := 0.44
  a1 := 0.31
  b1 := 1.0
  c1 := 10.0
  fEpsilon := 1.0
  uLim := 1.0
  loLim := 0.1
  nutMin := 0
  nutMax := 100000

/-- The coefficient set of the full-RAS reduction scenario (spec section
8): the defaults with `fEpsilon = 1`, `uLim = loLim = 1`. -/
def rasCoeffs : Coeffs where
  alphaK1 := 0.85
  alphaK2 := 1.0
  alphaOmega1 := 0.5
  alphaOmega2 := 0.856
  beta1 := 0.075
  beta2 := 0.0828
  betaStar := 0.09
  gamma1 := 5 / 9
  gamma2 := 0.44
  a1 := 0.31
  b1 := 1.0
  c1 := 10.0
  fEpsilon := 1.0
  uLim := 1.0
  loLim := 1.0
  nutMin := 0
  nutMax := 100000

/-- Modelled from the spec: the eddy-viscosity formula of the underlying
full RAS k-omega-SST closure, written from the spec's words for the
refinement comparison (spec section 8): the same SST realizability
limiter and clip, evaluated on the total quantities `k`, `omega`. -/
def nutSSTBase (c : Coeffs) (kT omegaT nu y S2 : ℝ) : ℝ :=
  clip c.nutMin c.nutMax
    (c.a1 * kT / max (c.a1 * omegaT) (c.b1 * F2val c kT omegaT nu y * sqrt S2))

/-- Hyperbolic tangent is nonnegative on nonnegative arguments. -/
lemma tanh_nonneg {x : ℝ} (hx : 0 ≤ x) : 0 ≤ Real.tanh x := by
  rw [Real.tanh_eq_sinh_div_cosh]
  exact div_nonneg (Real.sinh_nonneg_iff.mpr hx) (Real.cosh_pos x).le

/-- Hyperbolic tangent is positive on positive arguments. -/
lemma tanh_pos {x : ℝ} (hx : 0 < x) : 0 < Real.tanh x := by
  rw [Real.tanh_eq_sinh_div_cosh]
  exact div_pos (Real.sinh_pos_iff.mpr hx) (Real.cosh_pos x)

/-- Hyperbolic tangent is strictly below one. -/
lemma tanh_lt_one (x : ℝ) : Real.tanh x < 1 := by
  rw [Real.tanh_eq_sinh_div_cosh, div_lt_one (Real.cosh_pos x)]
  exact Real.sinh_lt_cosh x

/-- Hyperbolic tangent rewritten through the exponential remainder. -/
lemma tanh_eq_one_sub (x : ℝ) :
    Real.tanh x = 1 - Real.exp (-x) / Real.cosh x := by
  rw [Real.tanh_eq_sinh_div_cosh]
  have hc : Real.cosh x ≠ 0 := (Real.cosh_pos x).ne'
  field_simp
  linarith [Real.cosh_sub_sinh x]

/-- Hyperbolic tangent tends to one at infinity. -/
lemma tendsto_tanh_atTop : Tendsto Real.tanh atTop (nhds 1) := by
  have hrem : Tendsto (fun x : ℝ => Real.exp (-x) / Real.cosh x) atTop (nhds 0) := by
    apply squeeze_zero (fun t => div_nonneg (Real.exp_nonneg _) (Real.cosh_pos t).le)
      (fun t => ?_) Real.tendsto_exp_neg_atTop_nhds_zero
    rw [div_le_iff₀ (Real.cosh_pos t)]
    exact le_mul_of_one_le_right (Real.exp_nonneg _) (Real.one_le_cosh t)
  have h1 : Tendsto (fun x : ℝ => 1 - Real.exp (-x) / Real.cosh x) atTop (nhds (1 - 0)) :=
    tendsto_const_nhds.sub hrem
  rw [sub_zero] at h1
  refine h1.congr fun x => (tanh_eq_one_sub x).symm

/-- Hyperbolic tangent is continuous. -/
lemma continuous_tanh : Continuous Real.tanh := by
  have h : Real.tanh = fun x => Real.sinh x / Real.cosh x :=
    funext fun x => Real.tanh_eq_sinh_div_cosh x
  rw [h]
  exact Real.continuous_sinh.div Real.continuous_cosh fun x => (Real.cosh_pos x).ne'

/-- Minimum of two functions tending to infinity tends to infinity. -/
lemma tendsto_min_atTop {α : Type} {l : Filter α} {f g : α → ℝ}
    (hf : Tendsto f l atTop) (hg : Tendsto g l atTop) :
    Tendsto (fun x => min (f x) (g x)) l atTop := by
  rw [tendsto_atTop] at hf hg ⊢
  intro M
  filter_upwards [hf M, hg M] with x h1 h2
  exact le_min h1 h2

/-- The clipped value is at least the lower bound. -/
lemma le_clip {lo hi : ℝ} (x : ℝ) (h : lo ≤ hi) : lo ≤ clip lo hi x :=
  le_min (le_max_right x lo) h

/-- The clipped value is at most the upper bound. -/
lemma clip_le_hi (lo hi x : ℝ) : clip lo hi x ≤ hi :=
  min_le_right _ _

/-- Clipping a value below the lower bound returns the lower bound. -/
lemma clip_eq_lo {lo hi x : ℝ} (hx : x ≤ lo) (h : lo ≤ hi) : clip lo hi x = lo := by
  unfold clip
  rw [max_eq_right hx]
  exact min_eq_left h

/-- C1: after every `correct()` invocation, for any finite filter width
`≥ 0`, the resolution-control field satisfies `loLim ≤ fK ≤ uLim`,
`fOmega = fK / fEpsilon`, and therefore
`loLim / fEpsilon ≤ fOmega ≤ uLim / fEpsilon`. -/
theorem fK_fOmega_bounds_after_correct (c : Coeffs) (inp : CellInputs)
    (sol : SolveOutputs) (hd : 0 ≤ inp.delta) (hlu : c.loLim ≤ c.uLim)
    (hfe : 0 < c.fEpsilon) :
    c.loLim ≤ (correctStep c inp sol).fK ∧
    (correctStep c inp sol).fK ≤ c.uLim ∧
    (correctStep c inp sol).fOmega = (correctStep c inp sol).fK / c.fEpsilon ∧
    c.loLim / c.fEpsilon ≤ (correctStep c inp sol).fOmega ∧
    (correctStep c inp sol).fOmega ≤ c.uLim / c.fEpsilon := by
  have h1 : c.loLim ≤ fKval c inp.delta sol.kU sol.omegaU :=
    le_clip _ hlu
  have h2 : fKval c inp.delta sol.kU sol.omegaU ≤ c.uLim :=
    clip_le_hi _ _ _
  refine ⟨h1, h2, rfl, ?_, ?_⟩
  · exact div_le_div_of_nonneg_right h1 hfe.le
  · exact div_le_div_of_nonneg_right h2 hfe.le

/-- C7: if the filter width is degenerate (zero or negative), the
resolution-control evaluation clips `fK` to `loLim`, and `fOmega` is the
well-defined positive value `loLim / fEpsilon` (no non-finite values are
propagated). -/
theorem fK_clips_to_loLim_of_degenerate_delta (c : Coeffs) (inp : CellInputs)
    (sol : SolveOutputs) (hd : inp.delta ≤ 0) (hk : 0 < sol.kU)
    (hw : 0 < sol.omegaU) (hb : 0 < c.betaStar) (hlo : 0 < c.loLim)
    (hlu : c.loLim ≤ c.uLim) (hfe : 0 < c.fEpsilon) :
    (correctStep c inp sol).fK = c.loLim ∧
    (correctStep c inp sol).fOmega = c.loLim / c.fEpsilon ∧
    0 < (correctStep c inp sol).fK ∧
    0 < (correctStep c inp sol).fOmega := by
  have hlam : 0 < lambdaU c sol.kU sol.omegaU :=
    div_pos (Real.sqrt_pos.mpr hk) (mul_pos hb hw)
  have hraw : fKraw c inp.delta sol.kU sol.omegaU ≤ 0 := by
    rcases lt_or_eq_of_le hd with hlt | heq
    · have hx : inp.delta / lambdaU c sol.kU sol.omegaU < 0 :=
        div_neg_of_neg_of_pos hlt hlam
      unfold fKraw
      rw [Real.rpow_def_of_neg hx]
      have hpi : (2 : ℝ) / 3 * π = π - π / 3 := by ring
      rw [hpi, Real.cos_pi_sub, Real.cos_pi_div_three]
      have hpre : 0 < 1 / Real.sqrt c.betaStar := by positivity
      have hexp : 0 < Real.exp (Real.log (inp.delta / lambdaU c sol.kU sol.omegaU) * (2 / 3)) :=
        Real.exp_pos _
      nlinarith
    · unfold fKraw
      rw [heq, zero_div, Real.zero_rpow (by norm_num : ((2 : ℝ) / 3) ≠ 0), mul_zero]
  have hfK : fKval c inp.delta sol.kU sol.omegaU = c.loLim :=
    clip_eq_lo (le_trans hraw hlo.le) hlu
  refine ⟨hfK, by rw [show (correctStep c inp sol).fOmega =
    fKval c inp.delta sol.kU sol.omegaU / c.fEpsilon from rfl, hfK], ?_, ?_⟩
  · rw [show (correctStep c inp sol).fK = fKval c inp.delta sol.kU sol.omegaU from rfl, hfK]
    exact hlo
  · rw [show (correctStep c inp sol).fOmega =
      fKval c inp.delta sol.kU sol.omegaU / c.fEpsilon from rfl, hfK]
    positivity

/-- C3: the `k()` accessor applied to the state left by `correct()`
returns exactly `kU / fK`; equivalently, the reported total kinetic
energy times `fK` recovers the unresolved field, so total k is a derived
quantity and not independently evolved state. -/
theorem k_accessor_eq_kU_div_fK (c : Coeffs) (inp : CellInputs)
    (sol : SolveOutputs) (hlo : 0 < c.loLim) (hlu : c.loLim ≤ c.uLim) :
    kAccessor (correctStep c inp sol) =
      (correctStep c inp sol).kU / (correctStep c inp sol).fK ∧
    kAccessor (correctStep c inp sol) * (correctStep c inp sol).fK =
      (correctStep c inp sol).kU := by
  have hfK : (0 : ℝ) < (correctStep c inp sol).fK :=
    lt_of_lt_of_le hlo (le_clip _ hlu)
  exact ⟨rfl, div_mul_cancel₀ _ hfK.ne'⟩

/-- C4: the `epsilon()` accessor returns exactly
`betaStar * k * omega` in terms of the total-field accessors, and its
value is a function of those two accessor values alone — there is no
stored epsilon field it could read. -/
theorem epsilon_accessor_derived (c : Coeffs) (s t : CellState)
    (hk : kAccessor s = kAccessor t) (hw : omegaAccessor s = omegaAccessor t) :
    epsilonAccessor c s = c.betaStar * kAccessor s * omegaAccessor s ∧
    epsilonAccessor c s = epsilonAccessor c t := by
  unfold epsilonAccessor kAccessor omegaAccessor at *
  exact ⟨rfl, by rw [hk, hw]⟩

/-- C8: the blending evaluator is a pure function of the current state:
the call leaves the persisted state unchanged, and a second call on the
returned state produces the identical result. -/
theorem blending_evaluator_pure (c : Coeffs) (inp : CellInputs) (s : CellState) :
    (blendingCall c inp s).2 = s ∧
    blendingCall c inp ((blendingCall c inp s).2) = blendingCall c inp s :=
  ⟨rfl, rfl⟩

/-- C9: `kSource`, `omegaSource` and `Qsas` are side-effect-free on the
persisted fields (each call returns the state unchanged), idempotent
(calling again on the returned state yields the identical contribution),
and their contributions depend only on the current `kU`, `omegaU`, `fK`,
`fOmega` and their explicit arguments. -/
theorem source_terms_frame (c : Coeffs) (F1v CDv S2 gammav betav : ℝ)
    (s t : CellState) (h1 : s.kU = t.kU) (h2 : s.omegaU = t.omegaU)
    (h3 : s.fK = t.fK) (h4 : s.fOmega = t.fOmega) :
    (kSourceCall c s).2 = s ∧
    (omegaSourceCall c F1v CDv s).2 = s ∧
    (QsasCall c S2 gammav betav s).2 = s ∧
    (kSourceCall c ((kSourceCall c s).2)).1 = (kSourceCall c s).1 ∧
    (omegaSourceCall c F1v CDv ((omegaSourceCall c F1v CDv s).2)).1 =
      (omegaSourceCall c F1v CDv s).1 ∧
    (QsasCall c S2 gammav betav ((QsasCall c S2 gammav betav s).2)).1 =
      (QsasCall c S2 gammav betav s).1 ∧
    (kSourceCall c s).1 = (kSourceCall c t).1 ∧
    (omegaSourceCall c F1v CDv s).1 = (omegaSourceCall c F1v CDv t).1 ∧
    (QsasCall c S2 gammav betav s).1 = (QsasCall c S2 gammav betav t).1 :=
  ⟨rfl, rfl, rfl, rfl, rfl, rfl, rfl, rfl, rfl⟩

/-- C10: the effective diffusivities equal
`(fK/fOmega) * alphaK(F1) * nut + nu` and
`(fK/fOmega) * alphaOmega(F1) * nut + nu` pointwise, and whenever the
invariant `fOmega = fK / fEpsilon` holds with `fK ≠ 0` the PANS rescaling
factor `fK/fOmega` collapses to the constant `fEpsilon`. -/
theorem DkUEff_DomegaUEff_formula (c : Coeffs) (s : CellState) (F1v nuv : ℝ)
    (hrel : s.fOmega = s.fK / c.fEpsilon) (hfK : s.fK ≠ 0) :
    DkUEffVal c s F1v nuv = (s.fK / s.fOmega) * alphaKblend c F1v * s.nut + nuv ∧
    DomegaUEffVal c s F1v nuv =
      (s.fK / s.fOmega) * alphaOmegaBlend c F1v * s.nut + nuv ∧
    s.fK / s.fOmega = c.fEpsilon ∧
    DkUEffVal c s F1v nuv = c.fEpsilon * alphaKblend c F1v * s.nut + nuv ∧
    DomegaUEffVal c s F1v nuv = c.fEpsilon * alphaOmegaBlend c F1v * s.nut + nuv := by
  have hratio : s.fK / s.fOmega = c.fEpsilon := by
    rw [hrel, div_div_eq_mul_div, mul_comm s.fK c.fEpsilon, mul_div_assoc,
      div_self hfK, mul_one]
  refine ⟨rfl, rfl, hratio, ?_, ?_⟩
  · unfold DkUEffVal
    rw [hratio]
  · unfold DomegaUEffVal
    rw [hratio]

/-- C5: with `fEpsilon = 1` and `uLim = loLim = 1` the PANS model reduces
to the base k-omega-SST closure: after any `correct()` invocation the
resolution-control fields are identically one, total k equals unresolved
k, total omega equals unresolved omega, and the eddy viscosity equals the
base-model formula evaluated on the total quantities. -/
theorem pans_reduces_to_sst (c : Coeffs) (inp : CellInputs) (sol : SolveOutputs)
    (hfe : c.fEpsilon = 1) (hu : c.uLim = 1) (hlo : c.loLim = 1) :
    (correctStep c inp sol).fK = 1 ∧
    (correctStep c inp sol).fOmega = 1 ∧
    kAccessor (correctStep c inp sol) = kUAccessor (correctStep c inp sol) ∧
    omegaAccessor (correctStep c inp sol) = omegaUAccessor (correctStep c inp sol) ∧
    (correctStep c inp sol).nut =
      nutSSTBase c (kAccessor (correctStep c inp sol))
        (omegaAccessor (correctStep c inp sol)) inp.nu inp.y inp.S2 := by
  have hfK : fKval c inp.delta sol.kU sol.omegaU = 1 := by
    unfold fKval clip
    rw [hu, hlo]
    exact min_eq_right (le_max_right _ _)
  have h1 : (correctStep c inp sol).fK = 1 := hfK
  have h2 : (correctStep c inp sol).fOmega = 1 := by
    show fKval c inp.delta sol.kU sol.omegaU / c.fEpsilon = 1
    rw [hfK, hfe, div_one]
  have h3 : kAccessor (correctStep c inp sol) = kUAccessor (correctStep c inp sol) := by
    show sol.kU / fKval c inp.delta sol.kU sol.omegaU = sol.kU
    rw [hfK, div_one]
  have h4 : omegaAccessor (correctStep c inp sol) =
      omegaUAccessor (correctStep c inp sol) := by
    show sol.omegaU / (fKval c inp.delta sol.kU sol.omegaU / c.fEpsilon) = sol.omegaU
    rw [hfK, hfe, div_one, div_one]
  refine ⟨h1, h2, h3, h4, ?_⟩
  rw [h3, h4]
  show correctNutVal c sol.kU sol.omegaU inp.nu inp.y inp.S2 =
    nutSSTBase c (kUAccessor (correctStep c inp sol))
      (omegaUAccessor (correctStep c inp sol)) inp.nu inp.y inp.S2
  rfl

/-- C2: the eddy-viscosity corrector computes
`nut = a1 * kU / max(a1 * omegaU, b1 * F2 * sqrt(S2))` followed by
clipping to the configured bounds; the limiter's denominator is positive,
the result is nonnegative and bounded, and in the limit `omegaU → 0⁺`
with `S2 > 0` (limiter engaged) the eddy viscosity converges to the
finite nonnegative value `clip(a1 * kU / (b1 * sqrt S2))`. -/
theorem correctNut_formula_bounds_limit (c : Coeffs) (kU omegaU nu y S2 : ℝ)
    (hk : 0 ≤ kU) (hw : 0 < omegaU) (hnu : 0 < nu) (hy : 0 < y) (hS : 0 < S2)
    (hb : 0 < c.betaStar) (ha1 : 0 < c.a1) (hb1 : 0 < c.b1)
    (hmin : 0 ≤ c.nutMin) (hmm : c.nutMin ≤ c.nutMax) :
    correctNutVal c kU omegaU nu y S2 =
      clip c.nutMin c.nutMax
        (c.a1 * kU /
          max (c.a1 * omegaU) (c.b1 * F2val c kU omegaU nu y * Real.sqrt S2)) ∧
    0 < max (c.a1 * omegaU) (c.b1 * F2val c kU omegaU nu y * Real.sqrt S2) ∧
    0 ≤ c.a1 * kU /
        max (c.a1 * omegaU) (c.b1 * F2val c kU omegaU nu y * Real.sqrt S2) ∧
    0 ≤ correctNutVal c kU omegaU nu y S2 ∧
    correctNutVal c kU omegaU nu y S2 ≤ c.nutMax ∧
    Tendsto (fun w => correctNutVal c kU w nu y S2) (nhdsWithin 0 (Set.Ioi 0))
      (nhds (clip c.nutMin c.nutMax (c.a1 * kU / (c.b1 * Real.sqrt S2)))) := by
  have hy0 : y ≠ 0 := hy.ne'
  have hden : 0 < max (c.a1 * omegaU) (c.b1 * F2val c kU omegaU nu y * Real.sqrt S2) :=
    lt_max_iff.mpr (Or.inl (mul_pos ha1 hw))
  have hquot : 0 ≤ c.a1 * kU /
      max (c.a1 * omegaU) (c.b1 * F2val c kU omegaU nu y * Real.sqrt S2) :=
    div_nonneg (by positivity) hden.le
  have harg : Tendsto
      (fun w => max (2 * Real.sqrt kU / (c.betaStar * w * y)) (500 * nu / (y ^ 2 * w)))
      (nhdsWithin 0 (Set.Ioi 0)) atTop := by
    have hC : (0 : ℝ) < 500 * nu / y ^ 2 := by positivity
    have hbase : Tendsto (fun w : ℝ => 500 * nu / y ^ 2 * w⁻¹)
        (nhdsWithin 0 (Set.Ioi 0)) atTop :=
      Tendsto.const_mul_atTop hC tendsto_inv_zero_atTop
    refine tendsto_atTop_mono' _ ?_ hbase
    filter_upwards [self_mem_nhdsWithin] with w hwpos
    have hw0 : w ≠ 0 := (ne_of_gt hwpos)
    have he : 500 * nu / y ^ 2 * w⁻¹ = 500 * nu / (y ^ 2 * w) := by
      field_simp
    rw [he]
    exact le_max_right _ _
  have hF2 : Tendsto (fun w => F2val c kU w nu y)
      (nhdsWithin 0 (Set.Ioi 0)) (nhds 1) := by
    have h2 : Tendsto
        (fun w => (max (2 * Real.sqrt kU / (c.betaStar * w * y))
          (500 * nu / (y ^ 2 * w))) ^ 2) (nhdsWithin 0 (Set.Ioi 0)) atTop :=
      (tendsto_pow_atTop (by norm_num : (2 : ℕ) ≠ 0)).comp harg
    have h3 := tendsto_tanh_atTop.comp h2
    exact h3
  have hsq : (0 : ℝ) < Real.sqrt S2 := Real.sqrt_pos.mpr hS
  have hdenlim : Tendsto
      (fun w => max (c.a1 * w) (c.b1 * F2val c kU w nu y * Real.sqrt S2))
      (nhdsWithin 0 (Set.Ioi 0)) (nhds (c.b1 * Real.sqrt S2)) := by
    have hleft : Tendsto (fun w : ℝ => c.a1 * w)
        (nhdsWithin 0 (Set.Ioi 0)) (nhds 0) := by
      have hc : Continuous (fun w : ℝ => c.a1 * w) := continuous_const.mul continuous_id
      have h0 := hc.tendsto 0
      rw [mul_zero] at h0
      exact h0.mono_left nhdsWithin_le_nhds
    have hright : Tendsto (fun w => c.b1 * F2val c kU w nu y * Real.sqrt S2)
        (nhdsWithin 0 (Set.Ioi 0)) (nhds (c.b1 * 1 * Real.sqrt S2)) :=
      (tendsto_const_nhds.mul hF2).mul tendsto_const_nhds
    have h := hleft.max hright
    have hmx : max (0 : ℝ) (c.b1 * 1 * Real.sqrt S2) = c.b1 * Real.sqrt S2 := by
      rw [mul_one]
      exact max_eq_right (by positivity)
    rwa [hmx] at h
  have hquotlim : Tendsto
      (fun w => c.a1 * kU / max (c.a1 * w) (c.b1 * F2val c kU w nu y * Real.sqrt S2))
      (nhdsWithin 0 (Set.Ioi 0)) (nhds (c.a1 * kU / (c.b1 * Real.sqrt S2))) :=
    tendsto_const_nhds.div hdenlim (by positivity)
  refine ⟨rfl, hden, hquot, le_trans hmin (le_clip _ hmm), clip_le_hi _ _ _, ?_⟩
  have hclip := (hquotlim.max (tendsto_const_nhds :
      Tendsto (fun _ : ℝ => c.nutMin) (nhdsWithin 0 (Set.Ioi 0)) _)).min
    (tendsto_const_nhds :
      Tendsto (fun _ : ℝ => c.nutMax) (nhdsWithin 0 (Set.Ioi 0)) _)
  exact hclip

/-- C6 counterexample: at the admissible input `kU = 0` (the claim only
requires non-negative `kU`) with `omegaU = nu = CDkOmega = 1` and the
default coefficients, the blending field `F1` is identically zero in the
wall distance, so it does not tend to 1 as the wall distance tends
to `0⁺`. -/
theorem F1_near_wall_limit_fails_at_zero_kU :
    ¬ Tendsto (fun y => F1val stdCoeffs 0 1 1 1 y)
      (nhdsWithin 0 (Set.Ioi 0)) (nhds 1) := by
  intro h
  have hF : ∀ y : ℝ, F1val stdCoeffs 0 1 1 1 y = 0 := by
    intro y
    unfold F1val
    rw [Real.sqrt_zero, zero_div, mul_zero, zero_div,
      min_eq_right (le_max_left _ _), zero_pow (by norm_num : (4 : ℕ) ≠ 0)]
    exact Real.tanh_zero
  have h0 : Tendsto (fun y => F1val stdCoeffs 0 1 1 1 y)
      (nhdsWithin 0 (Set.Ioi 0)) (nhds 0) := by
    have hfun : (fun y : ℝ => F1val stdCoeffs 0 1 1 1 y) = fun _ => (0 : ℝ) :=
      funext hF
    rw [hfun]
    exact tendsto_const_nhds
  have h01 := tendsto_nhds_unique h0 h
  norm_num at h01

/-- C6 amended: for every admissible input (non-negative `kU`, positive
`omegaU`, wall distance and viscosity) the blending fields satisfy
`F1, F2 ∈ [0,1]`; when additionally `kU > 0`, `F1` tends to 1 as the
wall distance tends to `0⁺`; and `F1` tends to 0 far from walls
(wall distance to infinity) as well as at high cross-diffusion
(cross-diffusion magnitude to infinity), holding the other inputs
fixed. -/
theorem F1_F2_bounds_and_limits (c : Coeffs) (kU omegaU nu CD y : ℝ)
    (hk : 0 ≤ kU) (hw : 0 < omegaU) (hnu : 0 < nu) (hy : 0 < y)
    (hb : 0 < c.betaStar) (haw : 0 < c.alphaOmega2) :
    (0 ≤ F1val c kU omegaU nu CD y ∧ F1val c kU omegaU nu CD y ≤ 1) ∧
    (0 ≤ F2val c kU omegaU nu y ∧ F2val c kU omegaU nu y ≤ 1) ∧
    (0 < kU →
      Tendsto (fun t => F1val c kU omegaU nu CD t)
        (nhdsWithin 0 (Set.Ioi 0)) (nhds 1)) ∧
    Tendsto (fun t => F1val c kU omegaU nu CD t) atTop (nhds 0) ∧
    Tendsto (fun cd => F1val c kU omegaU nu cd y) atTop (nhds 0) := by
  have hCDp : (0 : ℝ) < max CD (1e-10) := lt_max_of_lt_right (by norm_num)
  refine ⟨⟨?_, ?_⟩, ⟨?_, ?_⟩, ?_, ?_, ?_⟩
  · exact tanh_nonneg (by positivity)
  · exact (tanh_lt_one _).le
  · exact tanh_nonneg (by positivity)
  · exact (tanh_lt_one _).le
  · -- near-wall limit for strictly positive kU
    intro hk0
    have hA : 0 < Real.sqrt kU / (c.betaStar * omegaU) :=
      div_pos (Real.sqrt_pos.mpr hk0) (mul_pos hb hw)
    have hg1 : Tendsto (fun t : ℝ => Real.sqrt kU / (c.betaStar * omegaU * t))
        (nhdsWithin 0 (Set.Ioi 0)) atTop := by
      have hbase := Tendsto.const_mul_atTop hA tendsto_inv_zero_atTop
      exact hbase.congr fun t => by ring
    have hg3 : Tendsto (fun t : ℝ => 4 * c.alphaOmega2 * kU / (max CD (1e-10) * t ^ 2))
        (nhdsWithin 0 (Set.Ioi 0)) atTop := by
      have hC3 : 0 < 4 * c.alphaOmega2 * kU / max CD (1e-10) :=
        div_pos (by positivity) hCDp
      have hsqr : Tendsto (fun t : ℝ => (t⁻¹) ^ 2) (nhdsWithin 0 (Set.Ioi 0)) atTop :=
        (tendsto_pow_atTop (by norm_num : (2 : ℕ) ≠ 0)).comp tendsto_inv_zero_atTop
      have hbase := Tendsto.const_mul_atTop hC3 hsqr
      exact hbase.congr fun t => by ring
    have hmax12 : Tendsto
        (fun t : ℝ => max (Real.sqrt kU / (c.betaStar * omegaU * t))
          (500 * nu / (t ^ 2 * omegaU))) (nhdsWithin 0 (Set.Ioi 0)) atTop :=
      tendsto_atTop_mono (fun t => le_max_left _ _) hg1
    have hargTop := tendsto_min_atTop hmax12 hg3
    exact tendsto_tanh_atTop.comp
      ((tendsto_pow_atTop (by norm_num : (4 : ℕ) ≠ 0)).comp hargTop)
  · -- limit far from walls
    have hg1z : Tendsto (fun t : ℝ => Real.sqrt kU / (c.betaStar * omegaU * t))
        atTop (nhds 0) := by
      have hbase : Tendsto (fun t : ℝ => Real.sqrt kU / (c.betaStar * omegaU) * t⁻¹)
          atTop (nhds (Real.sqrt kU / (c.betaStar * omegaU) * 0)) :=
        tendsto_const_nhds.mul tendsto_inv_atTop_zero
      rw [mul_zero] at hbase
      exact hbase.congr fun t => by ring
    have hg2z : Tendsto (fun t : ℝ => 500 * nu / (t ^ 2 * omegaU)) atTop (nhds 0) := by
      have hbase : Tendsto (fun t : ℝ => 500 * nu / omegaU * (t⁻¹) ^ 2)
          atTop (nhds (500 * nu / omegaU * 0 ^ 2)) :=
        tendsto_const_nhds.mul (tendsto_inv_atTop_zero.pow 2)
      rw [zero_pow (by norm_num : (2 : ℕ) ≠ 0), mul_zero] at hbase
      exact hbase.congr fun t => by ring
    have hupz : Tendsto
        (fun t : ℝ => max (Real.sqrt kU / (c.betaStar * omegaU * t))
          (500 * nu / (t ^ 2 * omegaU))) atTop (nhds 0) := by
      have h := hg1z.max hg2z
      rwa [max_self] at h
    have hlowz : ∀ᶠ t : ℝ in atTop, (0 : ℝ) ≤
        min (max (Real.sqrt kU / (c.betaStar * omegaU * t))
          (500 * nu / (t ^ 2 * omegaU)))
          (4 * c.alphaOmega2 * kU / (max CD (1e-10) * t ^ 2)) := by
      filter_upwards [eventually_gt_atTop (0 : ℝ)] with t ht
      refine le_min (le_trans ?_ (le_max_right _ _)) ?_
      · positivity
      · exact div_nonneg (by positivity) (mul_nonneg hCDp.le (sq_nonneg t))
    have hargz : Tendsto
        (fun t : ℝ => min (max (Real.sqrt kU / (c.betaStar * omegaU * t))
          (500 * nu / (t ^ 2 * omegaU)))
          (4 * c.alphaOmega2 * kU / (max CD (1e-10) * t ^ 2))) atTop (nhds 0) :=
      tendsto_of_tendsto_of_tendsto_of_le_of_le' tendsto_const_nhds hupz hlowz
        (Eventually.of_forall fun t => min_le_left _ _)
    have h40 := hargz.pow 4
    rw [zero_pow (by norm_num : (4 : ℕ) ≠ 0)] at h40
    have hfin := (continuous_tanh.tendsto 0).comp h40
    rw [Real.tanh_zero] at hfin
    exact hfin
  · -- limit at high cross-diffusion
    have hKz : Tendsto (fun cd : ℝ => 4 * c.alphaOmega2 * kU / (max cd (1e-10) * y ^ 2))
        atTop (nhds 0) := by
      have hdenTop : Tendsto (fun cd : ℝ => max cd (1e-10) * y ^ 2) atTop atTop :=
        Tendsto.atTop_mul_const (by positivity)
          (tendsto_atTop_mono (fun cd => le_max_left _ _) tendsto_id)
      exact tendsto_const_nhds.div_atTop hdenTop
    have hlow : ∀ cd : ℝ, (0 : ℝ) ≤
        min (max (Real.sqrt kU / (c.betaStar * omegaU * y))
          (500 * nu / (y ^ 2 * omegaU)))
          (4 * c.alphaOmega2 * kU / (max cd (1e-10) * y ^ 2)) := by
      intro cd
      refine le_min (le_trans ?_ (le_max_right _ _)) ?_
      · positivity
      · exact div_nonneg (by positivity)
          (mul_nonneg (le_trans (by norm_num) (le_max_right cd (1e-10))) (sq_nonneg y))
    have hargz : Tendsto
        (fun cd : ℝ => min (max (Real.sqrt kU / (c.betaStar * omegaU * y))
          (500 * nu / (y ^ 2 * omegaU)))
          (4 * c.alphaOmega2 * kU / (max cd (1e-10) * y ^ 2))) atTop (nhds 0) :=
      tendsto_of_tendsto_of_tendsto_of_le_of_le tendsto_const_nhds hKz hlow
        fun cd => min_le_right _ _
    have h40 := hargz.pow 4
    rw [zero_pow (by norm_num : (4 : ℕ) ≠ 0)] at h40
    have hfin := (continuous_tanh.tendsto 0).comp h40
    rw [Real.tanh_zero] at hfin
    exact hfin

/-- Witness for the C1 theorem at the default coefficients and unit
inputs. -/
theorem fK_fOmega_bounds_after_correct_witness :
    (0 : ℝ) ≤ (CellInputs.mk 1 1 1 1 1).delta ∧
    stdCoeffs.loLim ≤ stdCoeffs.uLim ∧ 0 < stdCoeffs.fEpsilon ∧
    (stdCoeffs.loLim ≤ (correctStep stdCoeffs ⟨1, 1, 1, 1, 1⟩ ⟨1, 1⟩).fK ∧
     (correctStep stdCoeffs ⟨1, 1, 1, 1, 1⟩ ⟨1, 1⟩).fK ≤ stdCoeffs.uLim ∧
     (correctStep stdCoeffs ⟨1, 1, 1, 1, 1⟩ ⟨1, 1⟩).fOmega =
       (correctStep stdCoeffs ⟨1, 1, 1, 1, 1⟩ ⟨1, 1⟩).fK / stdCoeffs.fEpsilon ∧
     stdCoeffs.loLim / stdCoeffs.fEpsilon ≤
       (correctStep stdCoeffs ⟨1, 1, 1, 1, 1⟩ ⟨1, 1⟩).fOmega ∧
     (correctStep stdCoeffs ⟨1, 1, 1, 1, 1⟩ ⟨1, 1⟩).fOmega ≤
       stdCoeffs.uLim / stdCoeffs.fEpsilon) :=
  ⟨by norm_num, by norm_num [stdCoeffs], by norm_num [stdCoeffs],
   fK_fOmega_bounds_after_correct stdCoeffs ⟨1, 1, 1, 1, 1⟩ ⟨1, 1⟩
     (by norm_num) (by norm_num [stdCoeffs]) (by norm_num [stdCoeffs])⟩

/-- Witness for the C7 theorem: filter width exactly zero at the default
coefficients. -/
theorem fK_clips_to_loLim_witness :
    (CellInputs.mk 0 1 1 1 1).delta ≤ 0 ∧
    (0 : ℝ) < (SolveOutputs.mk 1 1).kU ∧ (0 : ℝ) < (SolveOutputs.mk 1 1).omegaU ∧
    0 < stdCoeffs.betaStar ∧ 0 < stdCoeffs.loLim ∧
    stdCoeffs.loLim ≤ stdCoeffs.uLim ∧ 0 < stdCoeffs.fEpsilon ∧
    ((correctStep stdCoeffs ⟨0, 1, 1, 1, 1⟩ ⟨1, 1⟩).fK = stdCoeffs.loLim ∧
     (correctStep stdCoeffs ⟨0, 1, 1, 1, 1⟩ ⟨1, 1⟩).fOmega =
       stdCoeffs.loLim / stdCoeffs.fEpsilon ∧
     0 < (correctStep stdCoeffs ⟨0, 1, 1, 1, 1⟩ ⟨1, 1⟩).fK ∧
     0 < (correctStep stdCoeffs ⟨0, 1, 1, 1, 1⟩ ⟨1, 1⟩).fOmega) :=
  ⟨by norm_num, by norm_num, by norm_num, by norm_num [stdCoeffs],
   by norm_num [stdCoeffs], by norm_num [stdCoeffs], by norm_num [stdCoeffs],
   fK_clips_to_loLim_of_degenerate_delta stdCoeffs ⟨0, 1, 1, 1, 1⟩ ⟨1, 1⟩
     (by norm_num) (by norm_num) (by norm_num) (by norm_num [stdCoeffs])
     (by norm_num [stdCoeffs]) (by norm_num [stdCoeffs]) (by norm_num [stdCoeffs])⟩

/-- Witness for the C3 theorem at the default coefficients and unit
inputs. -/
theorem k_accessor_eq_kU_div_fK_witness :
    0 < stdCoeffs.loLim ∧ stdCoeffs.loLim ≤ stdCoeffs.uLim ∧
    (kAccessor (correctStep stdCoeffs ⟨1, 1, 1, 1, 1⟩ ⟨1, 1⟩) =
       (correctStep stdCoeffs ⟨1, 1, 1, 1, 1⟩ ⟨1, 1⟩).kU /
         (correctStep stdCoeffs ⟨1, 1, 1, 1, 1⟩ ⟨1, 1⟩).fK ∧
     kAccessor (correctStep stdCoeffs ⟨1, 1, 1, 1, 1⟩ ⟨1, 1⟩) *
         (correctStep stdCoeffs ⟨1, 1, 1, 1, 1⟩ ⟨1, 1⟩).fK =
       (correctStep stdCoeffs ⟨1, 1, 1, 1, 1⟩ ⟨1, 1⟩).kU) :=
  ⟨by norm_num [stdCoeffs], by norm_num [stdCoeffs],
   k_accessor_eq_kU_div_fK stdCoeffs ⟨1, 1, 1, 1, 1⟩ ⟨1, 1⟩
     (by norm_num [stdCoeffs]) (by norm_num [stdCoeffs])⟩

/-- Witness for the C4 theorem: two states agreeing on the total fields
but differing in every other stored field give the same epsilon. -/
theorem epsilon_accessor_derived_witness :
    kAccessor (CellState.mk 1 2 3 4 5 6 7) = kAccessor (CellState.mk 8 9 10 11 5 6 12) ∧
    omegaAccessor (CellState.mk 1 2 3 4 5 6 7) =
      omegaAccessor (CellState.mk 8 9 10 11 5 6 12) ∧
    (epsilonAccessor stdCoeffs (CellState.mk 1 2 3 4 5 6 7) =
       stdCoeffs.betaStar * kAccessor (CellState.mk 1 2 3 4 5 6 7) *
         omegaAccessor (CellState.mk 1 2 3 4 5 6 7) ∧
     epsilonAccessor stdCoeffs (CellState.mk 1 2 3 4 5 6 7) =
       epsilonAccessor stdCoeffs (CellState.mk 8 9 10 11 5 6 12)) :=
  ⟨rfl, rfl,
   epsilon_accessor_derived stdCoeffs (CellState.mk 1 2 3 4 5 6 7)
     (CellState.mk 8 9 10 11 5 6 12) rfl rfl⟩

/-- Witness for the C9 theorem: two states agreeing on `kU`, `omegaU`,
`fK`, `fOmega` but differing elsewhere. -/
theorem source_terms_frame_witness :
    (CellState.mk 1 2 3 4 5 6 7).kU = (CellState.mk 1 2 3 4 8 9 10).kU ∧
    (CellState.mk 1 2 3 4 5 6 7).omegaU = (CellState.mk 1 2 3 4 8 9 10).omegaU ∧
    (CellState.mk 1 2 3 4 5 6 7).fK = (CellState.mk 1 2 3 4 8 9 10).fK ∧
    (CellState.mk 1 2 3 4 5 6 7).fOmega = (CellState.mk 1 2 3 4 8 9 10).fOmega ∧
    ((kSourceCall stdCoeffs (CellState.mk 1 2 3 4 5 6 7)).2 =
       CellState.mk 1 2 3 4 5 6 7 ∧
     (omegaSourceCall stdCoeffs 1 2 (CellState.mk 1 2 3 4 5 6 7)).2 =
       CellState.mk 1 2 3 4 5 6 7 ∧
     (QsasCall stdCoeffs 3 4 5 (CellState.mk 1 2 3 4 5 6 7)).2 =
       CellState.mk 1 2 3 4 5 6 7 ∧
     (kSourceCall stdCoeffs ((kSourceCall stdCoeffs (CellState.mk 1 2 3 4 5 6 7)).2)).1 =
       (kSourceCall stdCoeffs (CellState.mk 1 2 3 4 5 6 7)).1 ∧
     (omegaSourceCall stdCoeffs 1 2
         ((omegaSourceCall stdCoeffs 1 2 (CellState.mk 1 2 3 4 5 6 7)).2)).1 =
       (omegaSourceCall stdCoeffs 1 2 (CellState.mk 1 2 3 4 5 6 7)).1 ∧
     (QsasCall stdCoeffs 3 4 5 ((QsasCall stdCoeffs 3 4 5 (CellState.mk 1 2 3 4 5 6 7)).2)).1 =
       (QsasCall stdCoeffs 3 4 5 (CellState.mk 1 2 3 4 5 6 7)).1 ∧
     (kSourceCall stdCoeffs (CellState.mk 1 2 3 4 5 6 7)).1 =
       (kSourceCall stdCoeffs (CellState.mk 1 2 3 4 8 9 10)).1 ∧
     (omegaSourceCall stdCoeffs 1 2 (CellState.mk 1 2 3 4 5 6 7)).1 =
       (omegaSourceCall stdCoeffs 1 2 (CellState.mk 1 2 3 4 8 9 10)).1 ∧
     (QsasCall stdCoeffs 3 4 5 (CellState.mk 1 2 3 4 5 6 7)).1 =
       (QsasCall stdCoeffs 3 4 5 (CellState.mk 1 2 3 4 8 9 10)).1) :=
  ⟨rfl, rfl, rfl, rfl,
   source_terms_frame stdCoeffs 1 2 3 4 5 (CellState.mk 1 2 3 4 5 6 7)
     (CellState.mk 1 2 3 4 8 9 10) rfl rfl rfl rfl⟩

/-- Witness for the C10 theorem at the default coefficients
(`fEpsilon = 1`) with `fK = fOmega = 2`. -/
theorem DkUEff_DomegaUEff_formula_witness :
    (CellState.mk 1 1 2 2 1 1 3).fOmega =
      (CellState.mk 1 1 2 2 1 1 3).fK / stdCoeffs.fEpsilon ∧
    (CellState.mk 1 1 2 2 1 1 3).fK ≠ 0 ∧
    (DkUEffVal stdCoeffs (CellState.mk 1 1 2 2 1 1 3) (1 / 2) 1 =
       ((CellState.mk 1 1 2 2 1 1 3).fK / (CellState.mk 1 1 2 2 1 1 3).fOmega) *
         alphaKblend stdCoeffs (1 / 2) * (CellState.mk 1 1 2 2 1 1 3).nut + 1 ∧
     DomegaUEffVal stdCoeffs (CellState.mk 1 1 2 2 1 1 3) (1 / 2) 1 =
       ((CellState.mk 1 1 2 2 1 1 3).fK / (CellState.mk 1 1 2 2 1 1 3).fOmega) *
         alphaOmegaBlend stdCoeffs (1 / 2) * (CellState.mk 1 1 2 2 1 1 3).nut + 1 ∧
     (CellState.mk 1 1 2 2 1 1 3).fK / (CellState.mk 1 1 2 2 1 1 3).fOmega =
       stdCoeffs.fEpsilon ∧
     DkUEffVal stdCoeffs (CellState.mk 1 1 2 2 1 1 3) (1 / 2) 1 =
       stdCoeffs.fEpsilon * alphaKblend stdCoeffs (1 / 2) *
         (CellState.mk 1 1 2 2 1 1 3).nut + 1 ∧
     DomegaUEffVal stdCoeffs (CellState.mk 1 1 2 2 1 1 3) (1 / 2) 1 =
       stdCoeffs.fEpsilon * alphaOmegaBlend stdCoeffs (1 / 2) *
         (CellState.mk 1 1 2 2 1 1 3).nut + 1) :=
  ⟨by norm_num [stdCoeffs], by norm_num,
   DkUEff_DomegaUEff_formula stdCoeffs (CellState.mk 1 1 2 2 1 1 3) (1 / 2) 1
     (by norm_num [stdCoeffs]) (by norm_num)⟩

/-- Witness for the C5 theorem at the full-RAS coefficient set and unit
inputs. -/
theorem pans_reduces_to_sst_witness :
    rasCoeffs.fEpsilon = 1 ∧ rasCoeffs.uLim = 1 ∧ rasCoeffs.loLim = 1 ∧
    ((correctStep rasCoeffs ⟨1, 1, 1, 1, 1⟩ ⟨1, 1⟩).fK = 1 ∧
     (correctStep rasCoeffs ⟨1, 1, 1, 1, 1⟩ ⟨1, 1⟩).fOmega = 1 ∧
     kAccessor (correctStep rasCoeffs ⟨1, 1, 1, 1, 1⟩ ⟨1, 1⟩) =
       kUAccessor (correctStep rasCoeffs ⟨1, 1, 1, 1, 1⟩ ⟨1, 1⟩) ∧
     omegaAccessor (correctStep rasCoeffs ⟨1, 1, 1, 1, 1⟩ ⟨1, 1⟩) =
       omegaUAccessor (correctStep rasCoeffs ⟨1, 1, 1, 1, 1⟩ ⟨1, 1⟩) ∧
     (correctStep rasCoeffs ⟨1, 1, 1, 1, 1⟩ ⟨1, 1⟩).nut =
       nutSSTBase rasCoeffs (kAccessor (correctStep rasCoeffs ⟨1, 1, 1, 1, 1⟩ ⟨1, 1⟩))
         (omegaAccessor (correctStep rasCoeffs ⟨1, 1, 1, 1, 1⟩ ⟨1, 1⟩))
         (CellInputs.mk 1 1 1 1 1).nu (CellInputs.mk 1 1 1 1 1).y
         (CellInputs.mk 1 1 1 1 1).S2) :=
  ⟨by norm_num [rasCoeffs], by norm_num [rasCoeffs], by norm_num [rasCoeffs],
   pans_reduces_to_sst rasCoeffs ⟨1, 1, 1, 1, 1⟩ ⟨1, 1⟩
     (by norm_num [rasCoeffs]) (by norm_num [rasCoeffs]) (by norm_num [rasCoeffs])⟩

/-- Witness for the C2 theorem at the default coefficients and unit
inputs. -/
theorem correctNut_formula_bounds_limit_witness :
    (0 : ℝ) ≤ 1 ∧ (0 : ℝ) < 1 ∧ 0 < stdCoeffs.betaStar ∧ 0 < stdCoeffs.a1 ∧
    0 < stdCoeffs.b1 ∧ 0 ≤ stdCoeffs.nutMin ∧ stdCoeffs.nutMin ≤ stdCoeffs.nutMax ∧
    (correctNutVal stdCoeffs 1 1 1 1 1 =
       clip stdCoeffs.nutMin stdCoeffs.nutMax
         (stdCoeffs.a1 * 1 /
           max (stdCoeffs.a1 * 1) (stdCoeffs.b1 * F2val stdCoeffs 1 1 1 1 * Real.sqrt 1)) ∧
     0 < max (stdCoeffs.a1 * 1) (stdCoeffs.b1 * F2val stdCoeffs 1 1 1 1 * Real.sqrt 1) ∧
     0 ≤ stdCoeffs.a1 * 1 /
         max (stdCoeffs.a1 * 1) (stdCoeffs.b1 * F2val stdCoeffs 1 1 1 1 * Real.sqrt 1) ∧
     0 ≤ correctNutVal stdCoeffs 1 1 1 1 1 ∧
     correctNutVal stdCoeffs 1 1 1 1 1 ≤ stdCoeffs.nutMax ∧
     Tendsto (fun w => correctNutVal stdCoeffs 1 w 1 1 1) (nhdsWithin 0 (Set.Ioi 0))
       (nhds (clip stdCoeffs.nutMin stdCoeffs.nutMax
         (stdCoeffs.a1 * 1 / (stdCoeffs.b1 * Real.sqrt 1))))) :=
  ⟨by norm_num, by norm_num, by norm_num [stdCoeffs], by norm_num [stdCoeffs],
   by norm_num [stdCoeffs], by norm_num [stdCoeffs], by norm_num [stdCoeffs],
   correctNut_formula_bounds_limit stdCoeffs 1 1 1 1 1 (by norm_num) (by norm_num)
     (by norm_num) (by norm_num) (by norm_num) (by norm_num [stdCoeffs])
     (by norm_num [stdCoeffs]) (by norm_num [stdCoeffs]) (by norm_num [stdCoeffs])
     (by norm_num [stdCoeffs])⟩

/-- Witness for the amended C6 theorem at the default coefficients and
unit inputs. -/
theorem F1_F2_bounds_and_limits_witness :
    (0 : ℝ) ≤ 1 ∧ (0 : ℝ) < 1 ∧ 0 < stdCoeffs.betaStar ∧ 0 < stdCoeffs.alphaOmega2 ∧
    ((0 ≤ F1val stdCoeffs 1 1 1 1 1 ∧ F1val stdCoeffs 1 1 1 1 1 ≤ 1) ∧
     (0 ≤ F2val stdCoeffs 1 1 1 1 ∧ F2val stdCoeffs 1 1 1 1 ≤ 1) ∧
     ((0 : ℝ) < 1 →
       Tendsto (fun t => F1val stdCoeffs 1 1 1 1 t)
         (nhdsWithin 0 (Set.Ioi 0)) (nhds 1)) ∧
     Tendsto (fun t => F1val stdCoeffs 1 1 1 1 t) atTop (nhds 0) ∧
     Tendsto (fun cd => F1val stdCoeffs 1 1 1 cd 1) atTop (nhds 0)) :=
  ⟨by norm_num, by norm_num, by norm_num [stdCoeffs], by norm_num [stdCoeffs],
   F1_F2_bounds_and_limits stdCoeffs 1 1 1 1 1 (by norm_num) (by norm_num)
     (by norm_num) (by norm_num) (by norm_num [stdCoeffs]) (by norm_num [stdCoeffs])⟩

end

end KOmegaSSTPANS
